import Mathlib

/-!
# zepo.reflect: field-level reflection metadata

A shallow embedding of `src/zepo.reflect/Reflect.hpp`.

* `std::type_index` is a natural number (a type identity, compared with `=`);
  the implementation-defined `std::type_index::name()` is the parameter
  `typeName` of every function that formats a message.
* `void*` is a natural number, `nullptr` is `0`; memory is a function from
  addresses to cell contents, one cell per data member, so that the member
  addressed by a pointer-to-member `r` of the object at `self` is the cell
  `self + r.offset`.
* the copy assignment `FieldType::operator=` of the member types is not part of
  the header: it is the parameter `CopyAssignment.assign`, which gives, for each
  type, the contents the target holds after `target = source`.
* `throw std::runtime_error(m)` is `Except.error ⟨m⟩`; a function that can both
  throw and write memory returns the pair of its result and the memory after.
-/

namespace zepo

/-- Type identity, `std::type_index`. -/
abbrev type_index := Nat

/-- Untyped pointer, `void*`. -/
abbrev VoidPtr := Nat

/-- The null pointer. -/
def nullptr : VoidPtr := 0

/-- Memory: the contents of every cell. -/
abbrev Memory (Val : Type) := VoidPtr → Val

/-- The only exception type the header throws, `std::runtime_error`. -/
structure runtime_error where
  what : String
deriving DecidableEq, Repr

/-- The three throw sites of the header, named as in the error taxonomy. -/
inductive ErrorKind where
  | TypeMismatch
  | FieldNotFound
  | UnknownType
deriving DecidableEq, Repr

/-- Which throw site produced an exception, read off the literal text each
site starts its message with (lines 21, 99 and 148 of the header). -/
def runtime_error.kind (e : runtime_error) : Option ErrorKind :=
  if "Field type mismatch: \"".data <+: e.what.data then some ErrorKind.TypeMismatch
  else if "Failed to find field \"".data <+: e.what.data then some ErrorKind.FieldNotFound
  else if "Unknown type: ".data <+: e.what.data then some ErrorKind.UnknownType
  else none

/-- The text `part` occurs in the text `msg`. -/
def Mentions (msg part : String) : Prop := part.data <:+: msg.data

instance (msg part : String) : Decidable (Mentions msg part) := by
  unfold Mentions; infer_instance

/-- Lines 17-30, `checkTypeMatch`. -/
def checkTypeMatch (typeName : type_index → String) (fieldType : type_index)
    (fieldName : String) (requiredType : type_index) : Except runtime_error Unit :=
  if requiredType ≠ fieldType then
    let exceptionMessage : String := ""
    let exceptionMessage := exceptionMessage ++ "Field type mismatch: \""
    let exceptionMessage := exceptionMessage ++ typeName fieldType
    let exceptionMessage := exceptionMessage ++ " "
    let exceptionMessage := exceptionMessage ++ fieldName
    let exceptionMessage := exceptionMessage ++ "\" and \""
    let exceptionMessage := exceptionMessage ++ typeName requiredType
    let exceptionMessage := exceptionMessage ++ "\""
    Except.error ⟨exceptionMessage⟩
  else
    Except.ok ()

/-- The copy assignment operators of the member types,
`FieldType::operator=(const FieldType&)`, which the header uses and does not
define: `assign t target source` is what an object of type `t` that held
`target` holds after it is assigned an object holding `source`. For a built-in
type it is `source`. -/
class CopyAssignment (Val : Type) where
  assign : type_index → Val → Val → Val

/-- Line 32, `ValueSetter`: writes memory through two untyped pointers. -/
abbrev ValueSetter (Val : Type) := VoidPtr → VoidPtr → Memory Val → Memory Val

/-- Line 33, `ValueGetter`. -/
abbrev ValueGetter := VoidPtr → VoidPtr

/-- Line 34, `AttributeGetter`. -/
abbrev AttributeGetter := Unit → VoidPtr

/-- Lines 39-42, `AttributeInfo`. -/
structure AttributeInfo where
  type : type_index
  getter : AttributeGetter

/-- Lines 44-49, the data members of `FieldInfo`. -/
structure FieldInfo (Val : Type) where
  name : String
  type : type_index
  setter : ValueSetter Val
  getter : ValueGetter
  attributes : List AttributeInfo := []

/-- Lines 51-61, `FieldInfo::findAttribute(std::type_index)`. -/
def FieldInfo.findAttribute {Val : Type} (self : FieldInfo Val) (type : type_index) : VoidPtr :=
  match self.attributes.find? (fun it => it.type == type) with
  | none => nullptr
  | some iter => iter.getter ()

/-- A pointer to a data member of the target type, `&T::m`: the cell it
addresses inside an object and the member's declared type
(`typeid(decltype(TargetType{}.*reference))`). -/
structure MemberPointer where
  offset : Nat
  type : type_index
deriving DecidableEq, Repr

/-- Lines 69-75, `TypeMetadata<Type>`: the private vector `fields_`. -/
structure TypeMetadata (Val : Type) where
  fields_ : List (FieldInfo Val) := []

/-- Lines 77-92, `TypeMetadata::addField`. The setter assigns to the member
through the copy assignment of its type (line 82). The returned reference to
the emplaced element is its position in `fields_`. -/
def TypeMetadata.addField {Val : Type} [CopyAssignment Val] (self : TypeMetadata Val)
    (name : String) (reference : MemberPointer) : Nat × TypeMetadata Val :=
  let FieldType := reference.type
  let setter : ValueSetter Val := fun self value memory =>
    Function.update memory (self + reference.offset)
      (CopyAssignment.assign FieldType (memory (self + reference.offset)) (memory value))
  let getter : ValueGetter := fun self => self + reference.offset
  let field : FieldInfo Val := { name := name, type := FieldType, setter := setter, getter := getter }
  (self.fields_.length, { fields_ := self.fields_ ++ [field] })

/-- Lines 94-103, `TypeMetadata::findField`. -/
def TypeMetadata.findField {Val : Type} (self : TypeMetadata Val) (name : String) :
    Except runtime_error (FieldInfo Val) :=
  match self.fields_.find? (fun it => it.name == name) with
  | none => Except.error ⟨"Failed to find field \"" ++ name ++ "\""⟩
  | some fieldIter => Except.ok fieldIter

/-- Lines 105-111, `TypeMetadata::getField<FieldType>`: the result and the
memory after the call. -/
def TypeMetadata.getField {Val : Type} (typeName : type_index → String)
    (self : TypeMetadata Val) (FieldType : type_index) (inst : VoidPtr) (name : String)
    (memory : Memory Val) : Except runtime_error Val × Memory Val :=
  match self.findField name with
  | Except.error e => (Except.error e, memory)
  | Except.ok fieldInfo =>
    match checkTypeMatch typeName fieldInfo.type fieldInfo.name FieldType with
    | Except.error e => (Except.error e, memory)
    | Except.ok () => (Except.ok (memory (fieldInfo.getter inst)), memory)

/-- Lines 113-119, `TypeMetadata::setField<FieldType>`; `value` is the address
of the caller's `const FieldType&`. -/
def TypeMetadata.setField {Val : Type} (typeName : type_index → String)
    (self : TypeMetadata Val) (FieldType : type_index) (inst : VoidPtr) (name : String)
    (value : VoidPtr) (memory : Memory Val) : Except runtime_error Unit × Memory Val :=
  match self.findField name with
  | Except.error e => (Except.error e, memory)
  | Except.ok fieldInfo =>
    match checkTypeMatch typeName fieldInfo.type fieldInfo.name FieldType with
    | Except.error e => (Except.error e, memory)
    | Except.ok () => (Except.ok (), fieldInfo.setter inst value memory)

/-- Lines 122-125, `MetadataHandler<Type>`. -/
structure MetadataHandler (Val : Type) where
  metadata : TypeMetadata Val := {}
  pendingAttributes : List AttributeInfo := []

/-- Assignment through the reference `addField` returned:
`fieldInfo.attributes = ...` on the element at `position`. -/
def assignAttributes {Val : Type} (fields : List (FieldInfo Val)) (position : Nat)
    (attributes : List AttributeInfo) : List (FieldInfo Val) :=
  match fields, position with
  | [], _ => []
  | f :: rest, 0 => { f with attributes := attributes } :: rest
  | f :: rest, p + 1 => f :: assignAttributes rest p attributes

/-- Lines 127-132, `MetadataHandler::field<Name, FieldReference>`. -/
def MetadataHandler.field {Val : Type} [CopyAssignment Val] (self : MetadataHandler Val)
    (Name : Unit → String) (FieldReference : MemberPointer) : MetadataHandler Val :=
  let (fieldInfo, metadata) := self.metadata.addField (Name ()) FieldReference
  let metadata : TypeMetadata Val :=
    { fields_ := assignAttributes metadata.fields_ fieldInfo self.pendingAttributes }
  { metadata := metadata, pendingAttributes := [] }

/-- Lines 134-140, `MetadataHandler::attribute<Attribute>`; `type` is
`typeid(decltype(*Attribute()))`, fixed by the provider's static type. -/
def MetadataHandler.attribute {Val : Type} (self : MetadataHandler Val) (type : type_index)
    (Attribute : AttributeGetter) : MetadataHandler Val :=
  { self with
    pendingAttributes := self.pendingAttributes ++ [{ type := type, getter := Attribute }] }

/-- One call in the body of a registration routine (what
`ZEPO_REFLECT_ATTRIBUTE_` and `ZEPO_REFLECT_FIELD_` expand to, lines 172-177). -/
inductive Call where
  | attributeCall (type : type_index) (Attribute : AttributeGetter)
  | fieldCall (Name : Unit → String) (FieldReference : MemberPointer)

/-- Performs one call on the builder. -/
def MetadataHandler.perform {Val : Type} [CopyAssignment Val] (self : MetadataHandler Val) :
    Call → MetadataHandler Val
  | Call.attributeCall type Attribute => self.attribute type Attribute
  | Call.fieldCall Name FieldReference => self.field Name FieldReference

/-- A registration run: the calls of a routine performed in sequence. -/
def MetadataHandler.run {Val : Type} [CopyAssignment Val] (self : MetadataHandler Val) (calls : List Call) :
    MetadataHandler Val :=
  calls.foldl MetadataHandler.perform self

/-- Lines 143-150 and 166-180, `ReflectTraits<Type, Handler>::execute`: the
unspecialised template (`routine = none`) throws; a specialisation written with
`ZEPO_REFLECT_INFO_BEGIN_ ... ZEPO_REFLECT_INFO_END_` performs its calls. -/
def ReflectTraits.execute {Val : Type} [CopyAssignment Val] (typeName : type_index → String) (T : type_index)
    (routine : Option (List Call)) (self : MetadataHandler Val) :
    Except runtime_error Unit × MetadataHandler Val :=
  match routine with
  | none => (Except.error ⟨"Unknown type: " ++ typeName T⟩, self)
  | some calls => (Except.ok (), self.run calls)

/-- Lines 159-164, the initialiser `ZEPO_REFLECT_METADATA_` gives
`metadataOf<TYPE_>`: a fresh handler, `execute()`, then a copy of its table. -/
def metadataInitialiser {Val : Type} [CopyAssignment Val] (typeName : type_index → String) (T : type_index)
    (routine : Option (List Call)) : Except runtime_error (TypeMetadata Val) :=
  let metadataHandler : MetadataHandler Val := {}
  match ReflectTraits.execute typeName T routine metadataHandler with
  | (Except.error e, _) => Except.error e
  | (Except.ok (), metadataHandler) => Except.ok metadataHandler.metadata

/-- Lines 152-153 and 159-164, `metadataOf<Type>`: the primary variable
template is a default-constructed table; `ZEPO_REFLECT_METADATA_(Type)`
(`specialised = true`) replaces it by the initialiser above. -/
def metadataOf {Val : Type} [CopyAssignment Val] (typeName : type_index → String) (T : type_index)
    (specialised : Bool) (routine : Option (List Call)) :
    Except runtime_error (TypeMetadata Val) :=
  if specialised then metadataInitialiser typeName T routine
  else Except.ok {}

/-- The table a registration run on a fresh builder ends with. -/
def registered {Val : Type} [CopyAssignment Val] (calls : List Call) : TypeMetadata Val :=
  (MetadataHandler.run ({} : MetadataHandler Val) calls).metadata

/-- The descriptor `addField` constructs (lines 81-90), with the given
attribute list in place of the empty one. -/
def descriptor {Val : Type} [CopyAssignment Val] (name : String) (reference : MemberPointer)
    (attributes : List AttributeInfo) : FieldInfo Val :=
  { name := name
    type := reference.type
    setter := fun self value memory =>
      Function.update memory (self + reference.offset)
        (CopyAssignment.assign reference.type (memory (self + reference.offset))
          (memory value))
    getter := fun self => self + reference.offset
    attributes := attributes }

/-- The name a call registers a field under, if it is a `field` call. -/
def Call.fieldName : Call → Option String
  | Call.attributeCall _ _ => none
  | Call.fieldCall Name _ => some (Name ())

/-- The call is an `attribute` call. -/
def Call.isAttribute : Call → Bool
  | Call.attributeCall _ _ => true
  | Call.fieldCall _ _ => false

/-- The call declares an attribute of the given type. -/
def Call.declares (type : type_index) : Call → Bool
  | Call.attributeCall t _ => t == type
  | Call.fieldCall _ _ => false

/-! ### Concrete registrations used as examples -/

/-- Type names for the examples: type `1` is `int`, type `3` is `Clamp`, every
other type `string`. -/
def sampleTypeName : type_index → String :=
  fun t => if t = 1 then "int" else if t = 3 then "Clamp" else "string"

/-- Copy assignment in the examples, whose cells hold numbers: `Clamp` (type `3`)
has an `operator=` that stores its argument cut off at `100`; every other type
stores its argument. -/
instance : CopyAssignment Nat where
  assign := fun t _ source => if t = 3 then min source 100 else source

/-- Name provider of the field `"c"`. -/
def nameC : Unit → String := fun _ => "c"

/-- One field `"c"` of type `Clamp` (type `3`) for member `0`. -/
def clampCalls : List Call :=
  [Call.fieldCall nameC ⟨0, 3⟩]

/-- Name provider of the field `"x"`. -/
def nameX : Unit → String := fun _ => "x"

/-- Name provider of the field `"y"`. -/
def nameY : Unit → String := fun _ => "y"

/-- A memory whose cell `a` holds `10 * a + 10`. -/
def sampleMemory : Memory Nat := fun a => 10 * a + 10

/-- The scenario of the specification: `Point{x:int, y:int}` with an attribute
of type `7` (`Range`, stored at address `100`) on `"x"` only. -/
def pointCalls : List Call :=
  [Call.attributeCall 7 (fun _ => 100), Call.fieldCall nameX ⟨0, 1⟩, Call.fieldCall nameY ⟨1, 1⟩]

/-- Two fields registered under the name `"x"`: member `0` of type `1`, then
member `1` of type `2`. -/
def duplicateCalls : List Call :=
  [Call.fieldCall nameX ⟨0, 1⟩, Call.fieldCall nameX ⟨1, 2⟩]

/-- Two fields registered under the name `"x"`, both of type `1`: member `0`,
then member `1`. -/
def twinCalls : List Call :=
  [Call.fieldCall nameX ⟨0, 1⟩, Call.fieldCall nameX ⟨1, 1⟩]

/-- A descriptor whose only attribute, of type `7`, has a provider that
returns the null pointer. -/
def nullProviderField : FieldInfo Nat :=
  descriptor "x" ⟨0, 1⟩ [{ type := 7, getter := fun _ => nullptr }]

/-- A sequence of `addField` calls on a table, in call order; each registration
is the name and the pointer to member one call is given. -/
def TypeMetadata.addFields {Val : Type} [CopyAssignment Val] (self : TypeMetadata Val)
    (registrations : List (String × MemberPointer)) : TypeMetadata Val :=
  registrations.foldl (fun table r => (table.addField r.1 r.2).2) self

/-! # Theorems -/

/-! ## Messages and error kinds -/

theorem kind_typeMismatch (s : String) :
    (runtime_error.mk ("Field type mismatch: \"" ++ s)).kind = some ErrorKind.TypeMismatch := by
  simp [runtime_error.kind, String.data_append]

theorem kind_fieldNotFound (s : String) :
    (runtime_error.mk ("Failed to find field \"" ++ s)).kind = some ErrorKind.FieldNotFound := by
  simp [runtime_error.kind, String.data_append]

theorem kind_unknownType (s : String) :
    (runtime_error.mk ("Unknown type: " ++ s)).kind = some ErrorKind.UnknownType := by
  simp [runtime_error.kind, String.data_append]

theorem mentions_of_eq {msg part : String} (before after : String)
    (h : msg = before ++ part ++ after) : Mentions msg part := by
  subst h
  exact ⟨before.data, after.data, by simp [String.data_append]⟩

/-- The message `checkTypeMatch` builds, as one expression. -/
theorem checkTypeMatch_of_ne (typeName : type_index → String) (fieldType : type_index)
    (fieldName : String) (requiredType : type_index) (h : requiredType ≠ fieldType) :
    checkTypeMatch typeName fieldType fieldName requiredType =
      Except.error ⟨"Field type mismatch: \"" ++ (typeName fieldType ++ " " ++ fieldName
        ++ "\" and \"" ++ typeName requiredType ++ "\"")⟩ := by
  simp [checkTypeMatch, h, String.append_assoc]

theorem checkTypeMatch_self (typeName : type_index → String) (fieldType : type_index)
    (fieldName : String) :
    checkTypeMatch typeName fieldType fieldName fieldType = Except.ok () := by
  simp [checkTypeMatch]

/-- C10: `checkTypeMatch(actualType, fieldName, requiredType)` returns normally
exactly when `actualType = requiredType` and throws the type-mismatch error
exactly when they differ; the message of the error it throws contains the
field name, the name of the declared type and the name of the requested type. -/
theorem checkTypeMatch_spec (typeName : type_index → String) (actualType : type_index)
    (fieldName : String) (requiredType : type_index) :
    (checkTypeMatch typeName actualType fieldName requiredType = Except.ok ()
        ↔ actualType = requiredType) ∧
    ((∃ e, checkTypeMatch typeName actualType fieldName requiredType = Except.error e
        ∧ e.kind = some ErrorKind.TypeMismatch) ↔ actualType ≠ requiredType) ∧
    (∀ e, checkTypeMatch typeName actualType fieldName requiredType = Except.error e →
        e.kind = some ErrorKind.TypeMismatch ∧ Mentions e.what fieldName ∧
        Mentions e.what (typeName actualType) ∧ Mentions e.what (typeName requiredType)) := by
  by_cases h : actualType = requiredType
  · subst h
    simp [checkTypeMatch_self]
  · have h2 : requiredType ≠ actualType := fun e => h e.symm
    rw [checkTypeMatch_of_ne typeName actualType fieldName requiredType h2]
    refine ⟨by simp [h], ?_, ?_⟩
    · simp only [ne_eq, h, not_false_eq_true, iff_true]
      exact ⟨_, rfl, kind_typeMismatch _⟩
    · intro e he
      cases he
      refine ⟨kind_typeMismatch _, ?_, ?_, ?_⟩
      · exact mentions_of_eq ("Field type mismatch: \"" ++ typeName actualType ++ " ")
          ("\" and \"" ++ typeName requiredType ++ "\"") (by simp [String.append_assoc])
      · exact mentions_of_eq "Field type mismatch: \""
          (" " ++ fieldName ++ "\" and \"" ++ typeName requiredType ++ "\"")
          (by simp [String.append_assoc])
      · exact mentions_of_eq
          ("Field type mismatch: \"" ++ typeName actualType ++ " " ++ fieldName ++ "\" and \"")
          "\"" (by simp [String.append_assoc])

/-! ## Lookup -/

theorem find_name_none {Val : Type} (fields : List (FieldInfo Val)) (name : String)
    (h : ∀ f ∈ fields, f.name ≠ name) :
    fields.find? (fun it => it.name == name) = none := by
  induction fields with
  | nil => rfl
  | cons a rest ih =>
    have ha : a.name ≠ name := h a (List.mem_cons_self a rest)
    have hb : (a.name == name) = false := by simpa using ha
    rw [List.find?_cons, hb]
    exact ih (fun f hf => h f (List.mem_cons_of_mem a hf))

theorem find_name_first {Val : Type} (before : List (FieldInfo Val)) (f : FieldInfo Val)
    (after : List (FieldInfo Val)) (name : String) (hf : f.name = name)
    (h : ∀ g ∈ before, g.name ≠ name) :
    (before ++ f :: after).find? (fun it => it.name == name) = some f := by
  induction before with
  | nil => simp [hf]
  | cons a rest ih =>
    have ha : a.name ≠ name := h a (List.mem_cons_self a rest)
    have hb : (a.name == name) = false := by simpa using ha
    rw [List.cons_append, List.find?_cons, hb]
    exact ih (fun g hg => h g (List.mem_cons_of_mem a hg))

theorem findField_of_absent {Val : Type} (self : TypeMetadata Val) (name : String)
    (h : ∀ f ∈ self.fields_, f.name ≠ name) :
    self.findField name = Except.error ⟨"Failed to find field \"" ++ name ++ "\""⟩ := by
  simp [TypeMetadata.findField, find_name_none self.fields_ name h]

theorem findField_of_first {Val : Type} (self : TypeMetadata Val)
    (before : List (FieldInfo Val)) (f : FieldInfo Val) (after : List (FieldInfo Val))
    (name : String) (hsplit : self.fields_ = before ++ f :: after) (hf : f.name = name)
    (h : ∀ g ∈ before, g.name ≠ name) :
    self.findField name = Except.ok f := by
  simp [TypeMetadata.findField, hsplit, find_name_first before f after name hf h]

theorem findField_ok_name {Val : Type} (self : TypeMetadata Val) (name : String)
    (f : FieldInfo Val) (h : self.findField name = Except.ok f) :
    f ∈ self.fields_ ∧ f.name = name := by
  unfold TypeMetadata.findField at h
  split at h
  · cases h
  · next found hfound =>
    cases h
    exact ⟨List.mem_of_find?_eq_some hfound, by simpa using List.find?_some hfound⟩

theorem findField_error_absent {Val : Type} (self : TypeMetadata Val) (name : String)
    (e : runtime_error) (h : self.findField name = Except.error e) :
    (∀ f ∈ self.fields_, f.name ≠ name) ∧
      e = ⟨"Failed to find field \"" ++ name ++ "\""⟩ := by
  unfold TypeMetadata.findField at h
  split at h
  · next hnone =>
    cases h
    refine ⟨?_, rfl⟩
    intro f hf
    have := List.find?_eq_none.1 hnone f hf
    simpa using this
  · cases h

/-- C3: `findField(name)` throws the field-not-found error exactly when no
descriptor of the table is named `name`; when it throws, `getField` and
`setField` on that name throw the same error for every requested type and leave
memory untouched; when some descriptor is named `name` it returns a descriptor
of the table whose name is `name`. -/
theorem findField_fieldNotFound_iff {Val : Type} (self : TypeMetadata Val) (name : String) :
    ((∃ e, self.findField name = Except.error e ∧ e.kind = some ErrorKind.FieldNotFound)
        ↔ ∀ f ∈ self.fields_, f.name ≠ name) ∧
    (∀ e, self.findField name = Except.error e →
        e.kind = some ErrorKind.FieldNotFound ∧
        (∀ (typeName : type_index → String) (W : type_index) (inst : VoidPtr)
            (memory : Memory Val),
          self.getField typeName W inst name memory = (Except.error e, memory)) ∧
        (∀ (typeName : type_index → String) (W : type_index) (inst value : VoidPtr)
            (memory : Memory Val),
          self.setField typeName W inst name value memory = (Except.error e, memory))) ∧
    ((∃ f ∈ self.fields_, f.name = name) →
        ∃ f ∈ self.fields_, self.findField name = Except.ok f ∧ f.name = name) := by
  refine ⟨⟨?_, ?_⟩, ?_, ?_⟩
  · rintro ⟨e, he, _⟩
    exact (findField_error_absent self name e he).1
  · intro h
    exact ⟨_, findField_of_absent self name h, by
      rw [String.append_assoc]; exact kind_fieldNotFound _⟩
  · intro e he
    have hmsg := (findField_error_absent self name e he).2
    refine ⟨?_, ?_, ?_⟩
    · rw [hmsg, String.append_assoc]; exact kind_fieldNotFound _
    · intro typeName W inst memory
      simp [TypeMetadata.getField, he]
    · intro typeName W inst value memory
      simp [TypeMetadata.setField, he]
  · rintro ⟨f, hf, hname⟩
    cases hres : self.findField name with
    | error e =>
      exact absurd hname ((findField_error_absent self name e hres).1 f hf)
    | ok g =>
      exact ⟨g, (findField_ok_name self name g hres).1, rfl, (findField_ok_name self name g hres).2⟩

/-! ## Attribute lookup -/

theorem findAttribute_of_absent {Val : Type} (self : FieldInfo Val) (type : type_index)
    (h : ∀ a ∈ self.attributes, a.type ≠ type) : self.findAttribute type = nullptr := by
  have : self.attributes.find? (fun it => it.type == type) = none := by
    rw [List.find?_eq_none]
    intro a ha
    simpa using h a ha
  simp [FieldInfo.findAttribute, this]

theorem find_type_first (before : List AttributeInfo) (a : AttributeInfo)
    (after : List AttributeInfo) (type : type_index) (ha : a.type = type)
    (h : ∀ b ∈ before, b.type ≠ type) :
    (before ++ a :: after).find? (fun it => it.type == type) = some a := by
  induction before with
  | nil => simp [ha]
  | cons b rest ih =>
    have hb : b.type ≠ type := h b (List.mem_cons_self b rest)
    have hb2 : (b.type == type) = false := by simpa using hb
    rw [List.cons_append, List.find?_cons, hb2]
    exact ih (fun g hg => h g (List.mem_cons_of_mem b hg))

theorem findAttribute_of_first {Val : Type} (self : FieldInfo Val) (type : type_index)
    (before : List AttributeInfo) (a : AttributeInfo) (after : List AttributeInfo)
    (hsplit : self.attributes = before ++ a :: after) (ha : a.type = type)
    (h : ∀ b ∈ before, b.type ≠ type) : self.findAttribute type = a.getter () := by
  simp [FieldInfo.findAttribute, hsplit, find_type_first before a after type ha h]

/-! ## The builder -/

theorem addField_eq {Val : Type} [CopyAssignment Val] (self : TypeMetadata Val) (name : String)
    (reference : MemberPointer) :
    self.addField name reference =
      (self.fields_.length, { fields_ := self.fields_ ++ [descriptor name reference []] }) :=
  rfl

theorem assignAttributes_last {Val : Type} (fields : List (FieldInfo Val)) (f : FieldInfo Val)
    (attributes : List AttributeInfo) :
    assignAttributes (fields ++ [f]) fields.length attributes =
      fields ++ [{ f with attributes := attributes }] := by
  induction fields with
  | nil => rfl
  | cons a rest ih => simp [assignAttributes, ih]

theorem field_eq {Val : Type} [CopyAssignment Val] (self : MetadataHandler Val) (Name : Unit → String)
    (FieldReference : MemberPointer) :
    self.field Name FieldReference =
      { metadata := { fields_ := self.metadata.fields_ ++
          [descriptor (Name ()) FieldReference self.pendingAttributes] }
        pendingAttributes := [] } := by
  simp [MetadataHandler.field, addField_eq, assignAttributes_last, descriptor]

theorem run_nil {Val : Type} [CopyAssignment Val] (self : MetadataHandler Val) : self.run [] = self := rfl

theorem run_cons {Val : Type} [CopyAssignment Val] (self : MetadataHandler Val) (c : Call) (calls : List Call) :
    self.run (c :: calls) = (self.perform c).run calls := rfl

theorem run_append {Val : Type} [CopyAssignment Val] (self : MetadataHandler Val) (first second : List Call) :
    self.run (first ++ second) = (self.run first).run second := by
  simp [MetadataHandler.run, List.foldl_append]

/-- Attribute calls alone leave the table as it is and only extend the buffer. -/
theorem run_attributes {Val : Type} [CopyAssignment Val] (calls : List Call)
    (h : ∀ c ∈ calls, c.isAttribute = true) (self : MetadataHandler Val) :
    (self.run calls).metadata = self.metadata ∧
      ∃ more, (self.run calls).pendingAttributes = self.pendingAttributes ++ more := by
  induction calls generalizing self with
  | nil => exact ⟨rfl, [], by simp [run_nil]⟩
  | cons c rest ih =>
    have hc := h c (List.mem_cons_self c rest)
    have hrest : ∀ d ∈ rest, d.isAttribute = true :=
      fun d hd => h d (List.mem_cons_of_mem c hd)
    cases c with
    | fieldCall Name FieldReference => simp [Call.isAttribute] at hc
    | attributeCall type Attribute =>
      obtain ⟨h1, more, h2⟩ := ih hrest (self.perform (Call.attributeCall type Attribute))
      refine ⟨by rw [run_cons, h1]; rfl, ⟨{ type := type, getter := Attribute } :: more, ?_⟩⟩
      rw [run_cons, h2]
      simp [MetadataHandler.perform, MetadataHandler.attribute]

/-- A run only appends descriptors, one per `field` call and named by it. -/
theorem run_fields {Val : Type} [CopyAssignment Val] (calls : List Call) (self : MetadataHandler Val) :
    ∃ extra, (self.run calls).metadata.fields_ = self.metadata.fields_ ++ extra ∧
      extra.map FieldInfo.name = calls.filterMap Call.fieldName := by
  induction calls generalizing self with
  | nil => exact ⟨[], by simp [run_nil]⟩
  | cons c rest ih =>
    obtain ⟨extra, h1, h2⟩ := ih (self.perform c)
    cases c with
    | attributeCall type Attribute =>
      exact ⟨extra, by rw [run_cons, h1]; rfl, by simpa [Call.fieldName] using h2⟩
    | fieldCall Name FieldReference =>
      refine ⟨descriptor (Name ()) FieldReference self.pendingAttributes :: extra, ?_, ?_⟩
      · rw [run_cons, h1]
        simp [MetadataHandler.perform, field_eq]
      · simp [Call.fieldName, h2, descriptor]

/-- A run in which no attribute of type `type` is declared, started with none
in the buffer, attaches none to the descriptors it appends and ends with none
in the buffer. -/
theorem run_without {Val : Type} [CopyAssignment Val] (type : type_index) (calls : List Call)
    (h : ∀ c ∈ calls, c.declares type = false) (self : MetadataHandler Val)
    (hpending : ∀ a ∈ self.pendingAttributes, a.type ≠ type) :
    ∃ extra, (self.run calls).metadata.fields_ = self.metadata.fields_ ++ extra ∧
      extra.length = (calls.filterMap Call.fieldName).length ∧
      (∀ f ∈ extra, ∀ a ∈ f.attributes, a.type ≠ type) ∧
      (∀ a ∈ (self.run calls).pendingAttributes, a.type ≠ type) := by
  induction calls generalizing self with
  | nil => exact ⟨[], by simp [run_nil], rfl, by simp, by simpa [run_nil] using hpending⟩
  | cons c rest ih =>
    have hc := h c (List.mem_cons_self c rest)
    have hrest : ∀ d ∈ rest, d.declares type = false :=
      fun d hd => h d (List.mem_cons_of_mem c hd)
    cases c with
    | attributeCall t Attribute =>
      have ht : t ≠ type := by simpa [Call.declares] using hc
      have hp : ∀ a ∈ (self.perform (Call.attributeCall t Attribute)).pendingAttributes,
          a.type ≠ type := by
        intro a ha
        simp only [MetadataHandler.perform, MetadataHandler.attribute, List.mem_append,
          List.mem_singleton] at ha
        rcases ha with ha | ha
        · exact hpending a ha
        · rw [ha]; exact ht
      obtain ⟨extra, h1, h2, h3, h4⟩ := ih hrest _ hp
      exact ⟨extra, by rw [run_cons, h1]; rfl, by simpa [Call.fieldName] using h2, h3,
        by rw [run_cons]; exact h4⟩
    | fieldCall Name FieldReference =>
      have hp : ∀ a ∈ (self.perform (Call.fieldCall Name FieldReference)).pendingAttributes,
          a.type ≠ type := by
        simp [MetadataHandler.perform, field_eq]
      obtain ⟨extra, h1, h2, h3, h4⟩ := ih hrest _ hp
      refine ⟨descriptor (Name ()) FieldReference self.pendingAttributes :: extra, ?_, ?_, ?_, ?_⟩
      · rw [run_cons, h1]
        simp [MetadataHandler.perform, field_eq]
      · simp [Call.fieldName, h2]
      · intro f hf
        rcases List.mem_cons.1 hf with hf | hf
        · rw [hf]; exact hpending
        · exact h3 f hf
      · rw [run_cons]; exact h4

/-! ## Tables built by a registration run -/

/-- The table of a run, split at a `field` call that is the first of the run
under its name: the descriptor that call appended is the first of the table
with that name. -/
theorem registered_split {Val : Type} [CopyAssignment Val] (before after : List Call) (Name : Unit → String)
    (FieldReference : MemberPointer)
    (hfirst : ∀ c ∈ before, c.fieldName ≠ some (Name ())) :
    ∃ (F G : List (FieldInfo Val)) (attributes : List AttributeInfo),
      (registered (before ++ Call.fieldCall Name FieldReference :: after) :
          TypeMetadata Val).fields_ =
        F ++ descriptor (Name ()) FieldReference attributes :: G ∧
      (∀ g ∈ F, g.name ≠ Name ()) := by
  obtain ⟨F, hF, hnames⟩ := run_fields before ({} : MetadataHandler Val)
  obtain ⟨G, hG, _⟩ := run_fields after
    ((MetadataHandler.run ({} : MetadataHandler Val) before).perform
      (Call.fieldCall Name FieldReference))
  refine ⟨F, G, (MetadataHandler.run ({} : MetadataHandler Val) before).pendingAttributes, ?_, ?_⟩
  · unfold registered
    rw [run_append, run_cons, hG]
    simp only [MetadataHandler.perform, field_eq, hF]
    simp
  · intro g hg hname
    have hmem : g.name ∈ before.filterMap Call.fieldName := by
      rw [← hnames]
      exact List.mem_map_of_mem FieldInfo.name hg
    obtain ⟨c, hc, hcn⟩ := List.mem_filterMap.1 hmem
    exact hfirst c hc (by rw [hcn, hname])

theorem findField_registered {Val : Type} [CopyAssignment Val] (before after : List Call) (Name : Unit → String)
    (FieldReference : MemberPointer)
    (hfirst : ∀ c ∈ before, c.fieldName ≠ some (Name ())) :
    ∃ attributes : List AttributeInfo,
      (registered (before ++ Call.fieldCall Name FieldReference :: after) :
          TypeMetadata Val).findField (Name ()) =
        Except.ok (descriptor (Name ()) FieldReference attributes) := by
  obtain ⟨F, G, attributes, hsplit, hF⟩ :=
    @registered_split Val _ before after Name FieldReference hfirst
  exact ⟨attributes, findField_of_first _ F _ G (Name ()) hsplit rfl hF⟩

/-- C4: for a `field` call of a registration run that is the first of
the run under its name, `getField` at the member's declared type returns the
contents of the member that call was given (`inst + FieldReference.offset`) and
leaves memory as it was. The table is an argument that `getField` does not
return, as the source does not write `fields_`. -/
theorem getField_reads_member {Val : Type} [CopyAssignment Val] (typeName : type_index → String)
    (before after : List Call) (Name : Unit → String) (FieldReference : MemberPointer)
    (hfirst : ∀ c ∈ before, c.fieldName ≠ some (Name ()))
    (inst : VoidPtr) (memory : Memory Val) :
    (registered (before ++ Call.fieldCall Name FieldReference :: after) :
        TypeMetadata Val).getField typeName FieldReference.type inst (Name ()) memory =
      (Except.ok (memory (inst + FieldReference.offset)), memory) := by
  obtain ⟨attributes, hfind⟩ :=
    @findField_registered Val _ before after Name FieldReference hfirst
  simp [TypeMetadata.getField, hfind, descriptor, checkTypeMatch_self]

/-- C1: for a `field` call of a registration run that is the first of
the run under its name, `setField` at the member's declared type with the value
stored at `value` succeeds, and `getField` at that type on the memory it leaves
succeeds and returns what the copy assignment of that type stored in the
member; that is the value written itself whenever the type's copy assignment
stores its argument. -/
theorem setField_getField_roundtrip {Val : Type} [CopyAssignment Val]
    (typeName : type_index → String)
    (before after : List Call) (Name : Unit → String) (FieldReference : MemberPointer)
    (hfirst : ∀ c ∈ before, c.fieldName ≠ some (Name ()))
    (inst value : VoidPtr) (memory : Memory Val) :
    ((registered (before ++ Call.fieldCall Name FieldReference :: after) :
        TypeMetadata Val).setField typeName FieldReference.type inst (Name ()) value
          memory).1 = Except.ok () ∧
    ((registered (before ++ Call.fieldCall Name FieldReference :: after) :
        TypeMetadata Val).getField typeName FieldReference.type inst (Name ())
          ((registered (before ++ Call.fieldCall Name FieldReference :: after) :
            TypeMetadata Val).setField typeName FieldReference.type inst (Name ()) value
              memory).2).1 =
      Except.ok (CopyAssignment.assign FieldReference.type
        (memory (inst + FieldReference.offset)) (memory value)) ∧
    ((∀ target source : Val,
        CopyAssignment.assign FieldReference.type target source = source) →
      ((registered (before ++ Call.fieldCall Name FieldReference :: after) :
          TypeMetadata Val).getField typeName FieldReference.type inst (Name ())
            ((registered (before ++ Call.fieldCall Name FieldReference :: after) :
              TypeMetadata Val).setField typeName FieldReference.type inst (Name ()) value
                memory).2).1 = Except.ok (memory value)) := by
  obtain ⟨attributes, hfind⟩ :=
    @findField_registered Val _ before after Name FieldReference hfirst
  refine ⟨?_, ?_, fun hcopy => ?_⟩
  · simp [TypeMetadata.setField, hfind, descriptor, checkTypeMatch_self]
  · simp [TypeMetadata.getField, TypeMetadata.setField, hfind, descriptor, checkTypeMatch_self]
  · simp [TypeMetadata.getField, TypeMetadata.setField, hfind, descriptor, checkTypeMatch_self,
      hcopy]

/-- C2: for a descriptor `f` that is the first of its table under its
name and every type `W` other than its declared type, `getField<W>` and
`setField<W>` on `f.name` both throw the type-mismatch error and leave memory
untouched (neither the getter nor the setter runs). -/
theorem typed_access_mismatch {Val : Type} (typeName : type_index → String)
    (self : TypeMetadata Val) (before : List (FieldInfo Val)) (f : FieldInfo Val)
    (after : List (FieldInfo Val)) (hsplit : self.fields_ = before ++ f :: after)
    (hfirst : ∀ g ∈ before, g.name ≠ f.name) (W : type_index) (hW : W ≠ f.type)
    (inst value : VoidPtr) (memory : Memory Val) :
    ∃ e, e.kind = some ErrorKind.TypeMismatch ∧
      self.getField typeName W inst f.name memory = (Except.error e, memory) ∧
      self.setField typeName W inst f.name value memory = (Except.error e, memory) := by
  have hfind := findField_of_first self before f after f.name hsplit rfl hfirst
  refine ⟨⟨"Field type mismatch: \"" ++ (typeName f.type ++ " " ++ f.name
    ++ "\" and \"" ++ typeName W ++ "\"")⟩, kind_typeMismatch _, ?_, ?_⟩
  · simp only [TypeMetadata.getField, hfind, checkTypeMatch_of_ne typeName f.type f.name W hW]
  · simp only [TypeMetadata.setField, hfind, checkTypeMatch_of_ne typeName f.type f.name W hW]

/-- C6: attribute calls made after the last `field` call of a registration run
have no effect on the finalized table: it is the table of the run without
them, so no descriptor carries them. -/
theorem trailing_attributes_dropped {Val : Type} [CopyAssignment Val] (calls trailing : List Call)
    (h : ∀ c ∈ trailing, c.isAttribute = true) :
    (registered (calls ++ trailing) : TypeMetadata Val) = registered calls ∧
    ∀ (typeName : type_index → String) (T : type_index),
      (metadataOf typeName T true (some (calls ++ trailing)) :
          Except runtime_error (TypeMetadata Val)) =
        Except.ok (registered calls) := by
  have hreg : (registered (calls ++ trailing) : TypeMetadata Val) = registered calls := by
    unfold registered
    rw [run_append]
    exact (run_attributes trailing h _).1
  refine ⟨hreg, fun typeName T => ?_⟩
  rw [← hreg]
  rfl

theorem execute_none_eq {Val : Type} [CopyAssignment Val] (typeName : type_index → String) (T : type_index)
    (self : MetadataHandler Val) :
    ReflectTraits.execute typeName T none self =
      (Except.error ⟨"Unknown type: " ++ typeName T⟩, self) := rfl

/-- C8: the unspecialised `ReflectTraits::execute` always throws the
unknown-type error, whose message contains the name of the type, and leaves the
builder as it found it: on a fresh builder no field is registered and no
attribute is buffered. -/
theorem execute_unregistered {Val : Type} [CopyAssignment Val] (typeName : type_index → String) (T : type_index)
    (self : MetadataHandler Val) :
    (∃ e, ReflectTraits.execute typeName T none self = (Except.error e, self) ∧
      e.kind = some ErrorKind.UnknownType ∧ Mentions e.what (typeName T)) ∧
    (ReflectTraits.execute typeName T none ({} : MetadataHandler Val)).2.metadata.fields_ = [] ∧
    (ReflectTraits.execute typeName T none ({} : MetadataHandler Val)).2.pendingAttributes = [] :=
  ⟨⟨_, execute_none_eq typeName T self, kind_unknownType _,
    mentions_of_eq "Unknown type: " "" (by simp)⟩, rfl, rfl⟩

/-- C7: for a type without a registration routine, the initialiser
`ZEPO_REFLECT_METADATA_` gives `metadataOf` throws the unknown-type error,
naming the type; without that definition `metadataOf` is the primary template,
a default-constructed empty table, whatever the routine. -/
theorem metadataOf_unregistered {Val : Type} [CopyAssignment Val] (typeName : type_index → String)
    (T : type_index) :
    (∃ e, (metadataOf typeName T true none : Except runtime_error (TypeMetadata Val)) =
        Except.error e ∧
      e.kind = some ErrorKind.UnknownType ∧ Mentions e.what (typeName T)) ∧
    (∀ routine : Option (List Call),
      (metadataOf typeName T false routine : Except runtime_error (TypeMetadata Val)) =
        Except.ok { fields_ := [] }) :=
  ⟨⟨⟨"Unknown type: " ++ typeName T⟩, rfl, kind_unknownType _,
    mentions_of_eq "Unknown type: " "" (by simp)⟩, fun _ => rfl⟩

/-- C7, counterexample: type `3` has no registration routine and no
`ZEPO_REFLECT_METADATA_` definition, and `metadataOf` is an empty table, not an
error. -/
theorem metadataOf_default_table :
    (metadataOf sampleTypeName 3 false none : Except runtime_error (TypeMetadata Nat)) =
      Except.ok { fields_ := [] } := rfl

/-- C9: `findAttribute(t)` returns the handle produced by the provider
of the first entry of the attribute list whose type is `t`; it returns null
when no entry has type `t`; a result that is not null comes from an entry of
type `t`. -/
theorem findAttribute_first_match {Val : Type} (self : FieldInfo Val) (t : type_index) :
    (∀ (before : List AttributeInfo) (a : AttributeInfo) (after : List AttributeInfo),
      self.attributes = before ++ a :: after → a.type = t → (∀ b ∈ before, b.type ≠ t) →
        self.findAttribute t = a.getter ()) ∧
    ((∀ a ∈ self.attributes, a.type ≠ t) → self.findAttribute t = nullptr) ∧
    (self.findAttribute t ≠ nullptr → ∃ a ∈ self.attributes, a.type = t) := by
  refine ⟨?_, findAttribute_of_absent self t, ?_⟩
  · intro before a after hsplit ha hfirst
    exact findAttribute_of_first self t before a after hsplit ha hfirst
  · intro hne
    by_contra hnone
    exact hne (findAttribute_of_absent self t (fun a ha hat => hnone ⟨a, ha, hat⟩))

/-- C9, counterexample: the attribute list has an entry of type `7`, and
`findAttribute(7)` is null, because that entry's provider returns null. -/
theorem findAttribute_null_provider :
    (∃ a ∈ nullProviderField.attributes, a.type = 7) ∧
      nullProviderField.findAttribute 7 = nullptr :=
  ⟨⟨_, List.mem_cons_self _ _, rfl⟩, rfl⟩

/-- C4, witness: in the `Point` scenario `getField<int>(p, "y")` returns the
stored `y`. -/
theorem getField_reads_member_witness :
    (∀ c ∈ [Call.attributeCall 7 (fun _ => 100), Call.fieldCall nameX ⟨0, 1⟩],
      c.fieldName ≠ some (nameY ())) ∧
    (registered pointCalls : TypeMetadata Nat).getField sampleTypeName 1 0 "y" sampleMemory =
      (Except.ok 20, sampleMemory) :=
  ⟨by simp [Call.fieldName, nameX, nameY],
   getField_reads_member sampleTypeName
    [Call.attributeCall 7 (fun _ => 100), Call.fieldCall nameX ⟨0, 1⟩] [] nameY ⟨1, 1⟩
    (by simp [Call.fieldName, nameX, nameY]) 0 sampleMemory⟩

/-- C1, witness: in the `Point` scenario, writing the value stored at address
`5` to the `int` field `"x"` and reading `"x"` back gives that value. -/
theorem setField_getField_roundtrip_witness :
    (∀ c ∈ [Call.attributeCall 7 (fun _ => 100)], c.fieldName ≠ some (nameX ())) ∧
    (∀ target source : Nat, CopyAssignment.assign 1 target source = source) ∧
    ((registered pointCalls : TypeMetadata Nat).setField sampleTypeName 1 0 "x" 5
        sampleMemory).1 = Except.ok () ∧
    ((registered pointCalls : TypeMetadata Nat).getField sampleTypeName 1 0 "x"
        ((registered pointCalls : TypeMetadata Nat).setField sampleTypeName 1 0 "x" 5
          sampleMemory).2).1 = Except.ok 60 :=
  ⟨by simp [Call.fieldName], fun _ _ => rfl,
   (setField_getField_roundtrip sampleTypeName [Call.attributeCall 7 (fun _ => 100)]
    [Call.fieldCall nameY ⟨1, 1⟩] nameX ⟨0, 1⟩ (by simp [Call.fieldName]) 0 5 sampleMemory).1,
   (setField_getField_roundtrip sampleTypeName [Call.attributeCall 7 (fun _ => 100)]
    [Call.fieldCall nameY ⟨1, 1⟩] nameX ⟨0, 1⟩ (by simp [Call.fieldName]) 0 5 sampleMemory).2.2
      (fun _ _ => rfl)⟩

/-- C2, witness: in the `Point` scenario `getField<string>(p, "x")` and
`setField<string>(p, "x", v)` throw the type-mismatch error. -/
theorem typed_access_mismatch_witness :
    (registered pointCalls : TypeMetadata Nat).fields_ =
      [] ++ descriptor "x" ⟨0, 1⟩ [{ type := 7, getter := fun _ => 100 }] ::
        [descriptor "y" ⟨1, 1⟩ []] ∧
    (2 : type_index) ≠ 1 ∧
    ∃ e, e.kind = some ErrorKind.TypeMismatch ∧
      (registered pointCalls : TypeMetadata Nat).getField sampleTypeName 2 0 "x" sampleMemory =
        (Except.error e, sampleMemory) ∧
      (registered pointCalls : TypeMetadata Nat).setField sampleTypeName 2 0 "x" 5 sampleMemory =
        (Except.error e, sampleMemory) :=
  ⟨rfl, by decide,
   typed_access_mismatch sampleTypeName (registered pointCalls) []
    (descriptor "x" ⟨0, 1⟩ [{ type := 7, getter := fun _ => 100 }])
    [descriptor "y" ⟨1, 1⟩ []] rfl (by simp) 2 (by decide) 0 5 sampleMemory⟩

/-- C6, witness: an attribute declared after the last field of the `Point`
scenario leaves its table as it is. -/
theorem trailing_attributes_dropped_witness :
    (∀ c ∈ [Call.attributeCall 9 (fun _ => 300)], c.isAttribute = true) ∧
    (registered (pointCalls ++ [Call.attributeCall 9 (fun _ => 300)]) : TypeMetadata Nat) =
      registered pointCalls ∧
    ∀ (typeName : type_index → String) (T : type_index),
      (metadataOf typeName T true (some (pointCalls ++ [Call.attributeCall 9 (fun _ => 300)])) :
          Except runtime_error (TypeMetadata Nat)) =
        Except.ok (registered pointCalls) :=
  ⟨by simp [Call.isAttribute],
   trailing_attributes_dropped pointCalls [Call.attributeCall 9 (fun _ => 300)]
    (by simp [Call.isAttribute])⟩

/-- C1, counterexample: with two fields registered under `"x"`, of types `1`
and `2`, the second one is a registered field of declared type `2`, and
`setField` at type `2` on `"x"` throws instead of writing; and for the only
field `"c"`, of type `Clamp`, writing the value `500` and reading `"c"` back
gives `100`. -/
theorem roundtrip_counterexamples :
    (∃ f ∈ (registered duplicateCalls : TypeMetadata Nat).fields_,
      f.type = 2 ∧ f.name = "x" ∧
      (registered duplicateCalls : TypeMetadata Nat).setField sampleTypeName f.type 0 f.name 5
          sampleMemory =
        (Except.error ⟨"Field type mismatch: \"int x\" and \"string\""⟩, sampleMemory)) ∧
    (∃ f ∈ (registered clampCalls : TypeMetadata Nat).fields_,
      f.type = 3 ∧ f.name = "c" ∧ sampleMemory 49 = 500 ∧
      ∃ written : Memory Nat,
        (registered clampCalls : TypeMetadata Nat).setField sampleTypeName f.type 0 f.name 49
            sampleMemory = (Except.ok (), written) ∧
        (registered clampCalls : TypeMetadata Nat).getField sampleTypeName f.type 0 f.name
            written = (Except.ok 100, written)) :=
  ⟨⟨descriptor "x" ⟨1, 2⟩ [], List.mem_cons_of_mem _ (List.mem_cons_self _ _), rfl, rfl, rfl⟩,
   ⟨descriptor "c" ⟨0, 3⟩ [], List.mem_cons_self _ _, rfl, rfl, rfl,
    Function.update sampleMemory 0 100, rfl, rfl⟩⟩

/-- C2, counterexample: with two fields registered under `"x"`, of types `1`
and `2`, the second one has declared type `2`, and `getField` at the different
type `1` on `"x"` succeeds. -/
theorem mismatch_missed_on_later_duplicate :
    ∃ f ∈ (registered duplicateCalls : TypeMetadata Nat).fields_, ∃ W, W ≠ f.type ∧
      (registered duplicateCalls : TypeMetadata Nat).getField sampleTypeName W 0 f.name
          sampleMemory = (Except.ok 10, sampleMemory) :=
  ⟨descriptor "x" ⟨1, 2⟩ [], List.mem_cons_of_mem _ (List.mem_cons_self _ _), 1, by decide, rfl⟩

/-- C4, counterexample: with two fields of type `1` registered under `"x"`, for
members `0` and `1`, `getField` on the second one's name returns `10`, the
contents of member `0`, while the member the second was registered with
holds `20`. -/
theorem getField_reads_first_duplicate :
    ∃ f ∈ (registered twinCalls : TypeMetadata Nat).fields_, f.type = 1 ∧
      (registered twinCalls : TypeMetadata Nat).getField sampleTypeName f.type 0 f.name
          sampleMemory = (Except.ok 10, sampleMemory) ∧
      sampleMemory (f.getter 0) = 20 :=
  ⟨descriptor "x" ⟨1, 1⟩ [], List.mem_cons_of_mem _ (List.mem_cons_self _ _), rfl, rfl, rfl⟩

theorem find_name_split {Val : Type} (fields : List (FieldInfo Val)) (name : String)
    (f : FieldInfo Val) (h : fields.find? (fun it => it.name == name) = some f) :
    ∃ before after, fields = before ++ f :: after ∧ f.name = name ∧
      ∀ g ∈ before, g.name ≠ name := by
  induction fields with
  | nil => simp at h
  | cons a rest ih =>
    by_cases ha : a.name = name
    · have hb : (a.name == name) = true := by simpa using ha
      rw [List.find?_cons, hb] at h
      cases h
      exact ⟨[], rest, rfl, ha, by simp⟩
    · have hb : (a.name == name) = false := by simpa using ha
      rw [List.find?_cons, hb] at h
      obtain ⟨before, after, hsplit, hname, hfirst⟩ := ih h
      refine ⟨a :: before, after, by simp [hsplit], hname, ?_⟩
      intro g hg
      rcases List.mem_cons.1 hg with hg | hg
      · rw [hg]; exact ha
      · exact hfirst g hg

/-- C12: `addField` never rejects a name, also one the table already has: it
appends one more descriptor; and `findField(name)` returns `f` exactly when `f`
is the earliest descriptor of the table named `name`, every descriptor before
it having another name, so a later descriptor of that name is not the one
returned. -/
theorem duplicate_name_first_wins {Val : Type} [CopyAssignment Val] (self : TypeMetadata Val) (name : String) :
    (∀ reference : MemberPointer,
      (self.addField name reference).2.fields_ =
        self.fields_ ++ [descriptor name reference []]) ∧
    (∀ f : FieldInfo Val, self.findField name = Except.ok f ↔
      ∃ before after, self.fields_ = before ++ f :: after ∧ f.name = name ∧
        ∀ g ∈ before, g.name ≠ name) := by
  refine ⟨fun reference => rfl, fun f => ⟨?_, ?_⟩⟩
  · intro h
    unfold TypeMetadata.findField at h
    split at h
    · cases h
    · next found hfound =>
      cases h
      exact find_name_split self.fields_ name _ hfound
  · rintro ⟨before, after, hsplit, hname, hfirst⟩
    exact findField_of_first self before f after name hsplit hname hfirst

/-- C12, witness: registering `"x"` again on a table that has `"x"` appends a
second descriptor, and `findField("x")` on the table with both returns the
one registered first. -/
theorem duplicate_name_first_wins_witness :
    ((registered [Call.fieldCall nameX ⟨0, 1⟩] : TypeMetadata Nat).addField "x" ⟨1, 2⟩).2.fields_ =
      (registered [Call.fieldCall nameX ⟨0, 1⟩] : TypeMetadata Nat).fields_ ++
        [descriptor "x" ⟨1, 2⟩ []] ∧
    (registered duplicateCalls : TypeMetadata Nat).findField "x" =
      Except.ok (descriptor "x" ⟨0, 1⟩ []) :=
  ⟨(duplicate_name_first_wins (registered [Call.fieldCall nameX ⟨0, 1⟩]) "x").1 ⟨1, 2⟩,
   ((duplicate_name_first_wins (registered duplicateCalls) "x").2 (descriptor "x" ⟨0, 1⟩ [])).2
    ⟨[], [descriptor "x" ⟨1, 2⟩ []], rfl, rfl, by simp⟩⟩

/-- C13: `field()` with name `n` on a builder with fields `F` and buffer `P`
leaves the fields `F` followed by one new descriptor named `n`, of the
member's declared type, whose attribute list is `P`, and an empty buffer;
`attribute<A>()` appends one descriptor of type `A` at the end of the buffer
and leaves the table as it is. -/
theorem builder_steps {Val : Type} [CopyAssignment Val] (self : MetadataHandler Val) :
    (∀ (Name : Unit → String) (FieldReference : MemberPointer),
      ∃ d : FieldInfo Val,
        (self.field Name FieldReference).metadata.fields_ = self.metadata.fields_ ++ [d] ∧
        d.name = Name () ∧ d.type = FieldReference.type ∧
        d.attributes = self.pendingAttributes ∧
        (self.field Name FieldReference).pendingAttributes = []) ∧
    (∀ (A : type_index) (Attribute : AttributeGetter),
      (self.attribute A Attribute).pendingAttributes =
          self.pendingAttributes ++ [{ type := A, getter := Attribute }] ∧
        (self.attribute A Attribute).metadata = self.metadata) := by
  refine ⟨fun Name FieldReference => ?_, fun A Attribute => ⟨rfl, rfl⟩⟩
  refine ⟨descriptor (Name ()) FieldReference self.pendingAttributes, ?_, rfl, rfl, rfl, ?_⟩
  · rw [field_eq]
  · rw [field_eq]

theorem addFields_fields {Val : Type} [CopyAssignment Val] (registrations : List (String × MemberPointer))
    (self : TypeMetadata Val) :
    (self.addFields registrations).fields_ =
      self.fields_ ++ registrations.map (fun r => descriptor r.1 r.2 []) := by
  induction registrations generalizing self with
  | nil => simp [TypeMetadata.addFields]
  | cons r rest ih =>
    have hstep : self.addFields (r :: rest) = (self.addField r.1 r.2).2.addFields rest := rfl
    rw [hstep, ih, addField_eq]
    simp

/-- C14: a sequence of `addField` calls on an empty table leaves, position by
position, the descriptors of the registrations in call order, so their
(name, declared type) pairs are the registered ones; each `addField` appends
one descriptor to the unchanged earlier ones, raises the count by one, and the
reference it returns is that new descriptor, whose attribute list is empty. -/
theorem insertion_order {Val : Type} [CopyAssignment Val] :
    (∀ registrations : List (String × MemberPointer),
      (({} : TypeMetadata Val).addFields registrations).fields_ =
          registrations.map (fun r => descriptor r.1 r.2 []) ∧
        (({} : TypeMetadata Val).addFields registrations).fields_.map
            (fun f => (f.name, f.type)) =
          registrations.map (fun r => (r.1, r.2.type))) ∧
    (∀ (self : TypeMetadata Val) (name : String) (reference : MemberPointer),
      ∃ d : FieldInfo Val,
        (self.addField name reference).2.fields_ = self.fields_ ++ [d] ∧
        (self.addField name reference).2.fields_.length = self.fields_.length + 1 ∧
        (self.addField name reference).2.fields_[(self.addField name reference).1]? = some d ∧
        d.name = name ∧ d.type = reference.type ∧ d.attributes = []) := by
  refine ⟨fun registrations => ?_, fun self name reference => ?_⟩
  · have h := addFields_fields registrations ({} : TypeMetadata Val)
    simp only [List.nil_append] at h
    refine ⟨h, ?_⟩
    rw [h, List.map_map]
    rfl
  · refine ⟨descriptor name reference [], rfl, ?_, ?_, rfl, rfl, rfl⟩
    · simp [addField_eq]
    · simp [addField_eq]


/-! ## Outcome and frame of typed access -/

theorem access_of_absent {Val : Type} (typeName : type_index → String)
    (self : TypeMetadata Val) (name : String) (h : ∀ f ∈ self.fields_, f.name ≠ name)
    (W : type_index) (inst value : VoidPtr) (memory : Memory Val) :
    self.getField typeName W inst name memory =
        (Except.error ⟨"Failed to find field \"" ++ (name ++ "\"")⟩, memory) ∧
      self.setField typeName W inst name value memory =
        (Except.error ⟨"Failed to find field \"" ++ (name ++ "\"")⟩, memory) := by
  have hfind := findField_of_absent self name h
  rw [String.append_assoc] at hfind
  exact ⟨by simp only [TypeMetadata.getField, hfind],
    by simp only [TypeMetadata.setField, hfind]⟩

/-- C16: `getField<W>` and `setField<W>` on `name` throw the field-not-found
error when no descriptor is named `name`; otherwise, with `f` the first
descriptor named `name`, they throw the type-mismatch error when `f.type`
differs from `W`, and succeed when it equals `W` (reading through `f.getter`,
writing through `f.setter`), whatever descriptors follow `f`. -/
theorem typed_access_outcome {Val : Type} (typeName : type_index → String)
    (self : TypeMetadata Val) (name : String) (W : type_index) (inst value : VoidPtr)
    (memory : Memory Val) :
    ((∀ f ∈ self.fields_, f.name ≠ name) →
      ∃ e, e.kind = some ErrorKind.FieldNotFound ∧
        self.getField typeName W inst name memory = (Except.error e, memory) ∧
        self.setField typeName W inst name value memory = (Except.error e, memory)) ∧
    (∀ (before : List (FieldInfo Val)) (f : FieldInfo Val) (after : List (FieldInfo Val)),
      self.fields_ = before ++ f :: after → f.name = name → (∀ g ∈ before, g.name ≠ name) →
        (f.type ≠ W →
          ∃ e, e.kind = some ErrorKind.TypeMismatch ∧
            self.getField typeName W inst name memory = (Except.error e, memory) ∧
            self.setField typeName W inst name value memory = (Except.error e, memory)) ∧
        (f.type = W →
          self.getField typeName W inst name memory =
              (Except.ok (memory (f.getter inst)), memory) ∧
            self.setField typeName W inst name value memory =
              (Except.ok (), f.setter inst value memory))) := by
  refine ⟨fun h => ?_, fun before f after hsplit hname hfirst => ⟨fun hW => ?_, fun hW => ?_⟩⟩
  · exact ⟨_, kind_fieldNotFound _, access_of_absent typeName self name h W inst value memory⟩
  · have hfind := findField_of_first self before f after name hsplit hname hfirst
    have hne : W ≠ f.type := fun e => hW e.symm
    refine ⟨⟨"Field type mismatch: \"" ++ (typeName f.type ++ " " ++ f.name
      ++ "\" and \"" ++ typeName W ++ "\"")⟩, kind_typeMismatch _, ?_, ?_⟩
    · simp only [TypeMetadata.getField, hfind,
        checkTypeMatch_of_ne typeName f.type f.name W hne]
    · simp only [TypeMetadata.setField, hfind,
        checkTypeMatch_of_ne typeName f.type f.name W hne]
  · have hfind := findField_of_first self before f after name hsplit hname hfirst
    subst hW
    exact ⟨by simp only [TypeMetadata.getField, hfind, checkTypeMatch_self],
      by simp only [TypeMetadata.setField, hfind, checkTypeMatch_self]⟩

/-- C16, witness: with `"x"` registered at type `1` and then at type `2`, access
to `"x"` at type `2` throws the type-mismatch error. -/
theorem typed_access_outcome_example :
    (∃ e, e.kind = some ErrorKind.TypeMismatch ∧
      (registered duplicateCalls : TypeMetadata Nat).getField sampleTypeName 2 0 "x"
          sampleMemory = (Except.error e, sampleMemory) ∧
      (registered duplicateCalls : TypeMetadata Nat).setField sampleTypeName 2 0 "x" 5
          sampleMemory = (Except.error e, sampleMemory)) :=
  ((typed_access_outcome sampleTypeName (registered duplicateCalls) "x" 2 0 5 sampleMemory).2
    [] (descriptor "x" ⟨0, 1⟩ []) [descriptor "x" ⟨1, 2⟩ []] rfl rfl (by simp)).1 (by decide)

/-- C17: whenever `setField<W>` throws, memory after the call is memory before
it, and the error is the field-not-found or the type-mismatch one. The table
is an argument `setField` does not return, as the source does not write
`fields_`. -/
theorem setField_error_atomic {Val : Type} (typeName : type_index → String)
    (self : TypeMetadata Val) (W : type_index) (inst : VoidPtr) (name : String)
    (value : VoidPtr) (memory : Memory Val) (e : runtime_error)
    (h : (self.setField typeName W inst name value memory).1 = Except.error e) :
    (self.setField typeName W inst name value memory).2 = memory ∧
      (e.kind = some ErrorKind.FieldNotFound ∨ e.kind = some ErrorKind.TypeMismatch) := by
  unfold TypeMetadata.setField at h ⊢
  cases hfind : self.findField name with
  | error e1 =>
    rw [hfind] at h
    simp only [Except.error.injEq] at h
    subst h
    refine ⟨rfl, Or.inl ?_⟩
    rw [(findField_error_absent self name e1 hfind).2, String.append_assoc]
    exact kind_fieldNotFound _
  | ok fieldInfo =>
    rw [hfind] at h
    by_cases hW : W = fieldInfo.type
    · subst hW
      simp [checkTypeMatch_self] at h
    · simp only [checkTypeMatch_of_ne typeName fieldInfo.type fieldInfo.name W hW,
        Except.error.injEq] at h ⊢
      subst h
      exact ⟨trivial, Or.inr (kind_typeMismatch _)⟩

/-- C17, witness: `setField<int>(p, "z", v)` in the `Point` scenario throws and
writes nothing. -/
theorem setField_error_atomic_witness :
    ((registered pointCalls : TypeMetadata Nat).setField sampleTypeName 1 0 "z" 5
        sampleMemory).1 = Except.error ⟨"Failed to find field \"z\""⟩ ∧
    ((registered pointCalls : TypeMetadata Nat).setField sampleTypeName 1 0 "z" 5
        sampleMemory).2 = sampleMemory ∧
    ((runtime_error.mk "Failed to find field \"z\"").kind = some ErrorKind.FieldNotFound ∨
      (runtime_error.mk "Failed to find field \"z\"").kind = some ErrorKind.TypeMismatch) :=
  ⟨rfl, setField_error_atomic sampleTypeName (registered pointCalls) 1 0 "z" 5 sampleMemory
    ⟨"Failed to find field \"z\""⟩ rfl⟩

end zepo
